import Mathlib

/-!
Verification development for the Automate_Trading repository.

The Python sources are shallowly embedded: network calls are abstracted by
response oracles passed as arguments, floats by exact rationals, and each
operation of the trading core becomes a total Lean function mirroring the
source control flow (`trading_api.py`, `main.py`, `utils.py`).
-/

namespace AutoTrade

set_option maxRecDepth 100000

/-! ### Order router: `TradingAPI.send_order` (`trading_api.py` 122-244) -/

/-- Overseas exchange codes tried by `send_order`, in source order
`exchange_codes = ['NASD', 'NYSE', 'AMEX']`. -/
inductive Venue
  | NASD
  | NYSE
  | AMEX
deriving DecidableEq

/-- Outcome of one order request to one venue, as discriminated by
`send_order`: `ok` is `rt_cd == '0'` (with the optional `ODNO` field of
`output`); `reject` is any other `rt_cd`; `rateLimit` is an HTTPError whose
status is 429 or whose body holds the token EGW00201; the last three are the
remaining handler arms (other HTTPError, RequestException, bare Exception). -/
inductive OrderResp
  | ok (odno : Option String)
  | reject
  | rateLimit
  | httpError
  | requestError
  | otherError
deriving DecidableEq

/-- The distinct failure reasons `send_order` can return; each constructor
stands for the corresponding message string built in the source. -/
inductive OrderError
  | configError
  | unknownType
  | hashFailure
  | allExhausted
deriving DecidableEq

/-- The `data` field of a successful order result. -/
structure OrderData where
  quantity : ℤ
  price : ℚ
  exchange_code : Venue
  odno : Option String
deriving DecidableEq

/-- The dictionary `send_order` returns. -/
structure OrderResult where
  success : Bool
  data : Option OrderData
  error : Option OrderError
deriving DecidableEq

/-- Result of `send_order` together with its observable request trace:
the venues that actually received an order request, in order, and the number
of one-second rate-limit sleeps performed. -/
structure RouteOutcome where
  result : OrderResult
  attempts : List Venue
  sleeps : ℕ
deriving DecidableEq

/-- `tr_id_map` lookup for country 'US'.  The source uppercases the order
type before the lookup; the order type is taken here as the already
uppercased string. -/
def trIdMap (orderType : String) : Option String :=
  if orderType = "BUY" then some "TTTT1002U"
  else if orderType = "SELL" then some "TTTT1006U"
  else none

/-- The fixed venue priority order of the router. -/
def venueOrder : List Venue := [Venue.NASD, Venue.NYSE, Venue.AMEX]

/-- The venue loop of `send_order`.  `hash v` is `get_hashkey`'s answer when
venue `v` is processed (`none` = falsy); `resp v k` is venue `v`'s response
to the (k+1)-th request it receives; `attempts` and `sleeps` accumulate the
trace.  Every failure arm of the source ends in `continue`, which advances
the `for exchange_code` loop to the next venue; the rate-limit arm
additionally sleeps one second first. -/
def routeGo (orderType : String) (quantity : ℤ) (price : ℚ)
    (hash : Venue → Option String) (resp : Venue → ℕ → OrderResp) :
    List Venue → List Venue → ℕ → RouteOutcome
  | [], attempts, sleeps =>
      ⟨⟨false, none, some OrderError.allExhausted⟩, attempts, sleeps⟩
  | v :: rest, attempts, sleeps =>
      if orderType = "BUY" ∨ orderType = "SELL" then
        match hash v with
        | none => ⟨⟨false, none, some OrderError.hashFailure⟩, attempts, sleeps⟩
        | some _ =>
          match resp v (attempts.count v) with
          | OrderResp.ok odno =>
              ⟨⟨true, some ⟨quantity, price, v, odno⟩, none⟩, attempts ++ [v], sleeps⟩
          | OrderResp.reject =>
              routeGo orderType quantity price hash resp rest (attempts ++ [v]) sleeps
          | OrderResp.rateLimit =>
              routeGo orderType quantity price hash resp rest (attempts ++ [v]) (sleeps + 1)
          | OrderResp.httpError =>
              routeGo orderType quantity price hash resp rest (attempts ++ [v]) sleeps
          | OrderResp.requestError =>
              routeGo orderType quantity price hash resp rest (attempts ++ [v]) sleeps
          | OrderResp.otherError =>
              routeGo orderType quantity price hash resp rest (attempts ++ [v]) sleeps
      else ⟨⟨false, none, some OrderError.unknownType⟩, attempts, sleeps⟩

/-- `TradingAPI.send_order`: resolve the (country, order type) transaction
id, then run the venue fallback loop; a missing mapping fails immediately
before any venue is contacted. -/
def sendOrder (orderType : String) (quantity : ℤ) (price : ℚ)
    (hash : Venue → Option String) (resp : Venue → ℕ → OrderResp) : RouteOutcome :=
  match trIdMap orderType with
  | none => ⟨⟨false, none, some OrderError.configError⟩, [], 0⟩
  | some _ => routeGo orderType quantity price hash resp venueOrder [] 0

/-! ### Last-price lookup: `TradingAPI.get_current_price` (449-524) -/

/-- Quote venue codes tried by `get_current_price`, in source order
`['NAS', 'NYS', 'AMS']`. -/
inductive Excd
  | NAS
  | NYS
  | AMS
deriving DecidableEq

/-- State of the `last` field of the quote payload as the source inspects
it: `absent` means the key is missing or the string falsy (empty),
`malformed` a non-empty string whose float conversion raises, and `val q` a
non-empty string parsing to `q`. -/
inductive FieldVal
  | absent
  | malformed
  | val (q : ℚ)
deriving DecidableEq

/-- A venue's response to one quote request: a transport-level failure
(any raised requests exception), or a payload with its `rt_cd` and its
`output` dictionary (`none` = missing or falsy). -/
inductive PriceResp
  | transportError
  | payload (rt_cd : String) (output : Option FieldVal)
deriving DecidableEq

/-- The per-venue body of `get_current_price`: every failure arm ends in
`continue`, only a parsed `last` field returns. -/
def tryVenuePrice : PriceResp → Option ℚ
  | PriceResp.transportError => none
  | PriceResp.payload rt_cd output =>
      if rt_cd ≠ "0" then none
      else
        match output with
        | none => none
        | some FieldVal.absent => none
        | some FieldVal.malformed => none
        | some (FieldVal.val q) => some q

/-- The venue loop of `get_current_price`. -/
def getCurrentPriceGo (resp : Excd → PriceResp) : List Excd → Option ℚ
  | [] => none
  | e :: rest =>
      match tryVenuePrice (resp e) with
      | some q => some q
      | none => getCurrentPriceGo resp rest

/-- `TradingAPI.get_current_price`: try NAS, NYS, AMS in order; return the
first parsed price, `None` after all are exhausted. -/
def getCurrentPrice (resp : Excd → PriceResp) : Option ℚ :=
  getCurrentPriceGo resp [Excd.NAS, Excd.NYS, Excd.AMS]

/-! ### Ask-ladder fetch: `TradingAPI.get_asking_price_10` (526-609) -/

/-- One (paskᵢ, vaskᵢ) slot of the `output2` payload.  A field is `some x`
when the response string is truthy (non-empty) and its numeric conversion
succeeds, and `none` when the key is missing, the string empty, or the
conversion raises; the source test `if price and volume` plus the
`except ValueError` arm drop exactly the `none` cases. -/
structure RawAsk where
  price : Option ℚ
  volume : Option ℤ
deriving DecidableEq

/-- A 10-level quote response: its `rt_cd` and the `pask/vask` slots of its
`output2` dictionary in index order (`none` = `output2` missing or falsy). -/
structure AskResp where
  rt_cd : String
  output2 : Option (List RawAsk)
deriving DecidableEq

/-- Comparison key of `asking_prices.sort(key=lambda x: x['price'])`. -/
def askLe (a b : ℚ × ℤ) : Prop := a.1 ≤ b.1

instance : DecidableRel askLe := fun a b => inferInstanceAs (Decidable (a.1 ≤ b.1))

instance : IsTotal (ℚ × ℤ) askLe := ⟨fun a b => le_total a.1 b.1⟩

instance : IsTrans (ℚ × ℤ) askLe := ⟨fun _ _ _ h h' => le_trans h h'⟩

/-- The `for i in range(1, 11)` accumulation (571-584): keep the slots
whose price and volume fields are both truthy and parseable. -/
def keptAsks (slots : List RawAsk) : List (ℚ × ℤ) :=
  slots.filterMap fun e =>
    match e.price, e.volume with
    | some p, some v => some (p, v)
    | _, _ => none

/-- `TradingAPI.get_asking_price_10`, as a function of the response.  The
message strings stand for the Korean messages of the source. -/
def getAskingPrice10 (resp : AskResp) : Option (List (ℚ × ℤ)) × Option String :=
  if resp.rt_cd ≠ "0" then (none, some "rt_cd error")
  else
    match resp.output2 with
    | none => (none, some "no output2")
    | some slots =>
        let asking_prices := keptAsks slots
        if asking_prices.isEmpty then (some [], none)
        else (some (asking_prices.insertionSort askLe), none)

/-! ### Position classification and stop-loss pass (`main.py` 146-276) -/

/-- The profit percentage formula shared by the classification and stop-loss
passes: `((current - buy) / buy) * 100` with 0 when `buy_price == 0`. -/
def profitPct (buyPrice currentPrice : ℚ) : ℚ :=
  if buyPrice ≠ 0 then (currentPrice - buyPrice) / buyPrice * 100 else 0

/-- The two liquidation buckets a held position is sorted into. -/
inductive Bucket
  | profit_taking
  | stop_loss_candidate
deriving DecidableEq

/-- The bucket assignment of `main.py` 164-177: `profit_percentage > 0`
goes to `profitable_positions`, everything else to
`non_profitable_positions`. -/
def classify (buyPrice currentPrice : ℚ) : Bucket :=
  if 0 < profitPct buyPrice currentPrice then Bucket.profit_taking
  else Bucket.stop_loss_candidate

/-- Stop-loss decision for one position of the non-profitable bucket
(`main.py` 215-276).  `holdingPeriod` is `(today - buy_date).days`;
`livePrice` is `get_current_price`'s answer, consulted only when the gates
pass.  Returns whether the live price was fetched and the price of the SELL
order submitted, if any. -/
def stopLossDecision (buyPrice : ℚ) (buyQuantity : ℤ) (snapshotPrice : ℚ)
    (holdingPeriod : ℤ) (livePrice : Option ℚ) : Bool × Option ℚ :=
  if 5 ≤ holdingPeriod then
    if profitPct buyPrice snapshotPrice ≤ 0 then
      match livePrice with
      | none => (true, none)
      | some p =>
          if (p - buyPrice) * buyQuantity ≤ 0 then (true, some p) else (true, none)
    else (false, none)
  else (false, none)

/-! ### Ladder walk of the buy loop (`main.py` 340-392) -/

/-- `round(x, 2)` of the source.  Python rounds float ties to even and is
subject to binary representation; off ties the two agree, and no claim
touches a tie. -/
def round2 (q : ℚ) : ℚ := ((round (q * 100) : ℤ) : ℚ) / 100

/-- `int(x)`: Python truncation toward zero. -/
def pyInt (q : ℚ) : ℤ := if q < 0 then ⌈q⌉ else ⌊q⌋

/-- One parsed ask level as consumed by the walk. -/
structure Ask where
  price : ℚ
  volume : ℤ
deriving DecidableEq

/-- One successful fill as appended to `buy_quantities`: the source records
`{'price': order_price, 'quantity': buy_quantity}` where `order_price` is
`round(price, 2)`; `rawPrice` additionally carries the ladder level's price,
which is what `buy_amount` is decremented by. -/
structure Fill where
  price : ℚ
  rawPrice : ℚ
  quantity : ℤ
deriving DecidableEq

/-- The mutable locals of the per-symbol walk, plus the list of order prices
actually submitted (one entry per `send_order` call). -/
structure WalkState where
  buyAmount : ℚ
  remainingQuantity : ℤ
  totalBought : ℤ
  buyQuantities : List Fill
  submitted : List ℚ
deriving DecidableEq

/-- Body of the per-level loop (`main.py` 348-392).  `ok n` tells whether
the (n+1)-th order submitted during this walk succeeds.  The returned flag
says whether the loop breaks (`remaining_quantity <= 0`, checked only on
the paths that attempted an order). -/
def levelStep (ok : ℕ → Bool) (a : Ask) (s : WalkState) : WalkState × Bool :=
  if a.price ≤ 0 then (s, false)
  else
    let possible := pyInt (s.buyAmount / a.price)
    if possible ≤ 0 then (s, false)
    else
      let buyQuantity := min a.volume (min possible s.remainingQuantity)
      if buyQuantity < 1 then (s, false)
      else
        let orderPrice := round2 a.price
        let firstOk := ok s.submitted.length
        let submitted' :=
          if firstOk then s.submitted ++ [orderPrice]
          else s.submitted ++ [orderPrice, ((round a.price : ℤ) : ℚ)]
        let success := if firstOk then true else ok (s.submitted.length + 1)
        let s' :=
          if success then
            { buyAmount := s.buyAmount - buyQuantity * a.price
              remainingQuantity := s.remainingQuantity - buyQuantity
              totalBought := s.totalBought + buyQuantity
              buyQuantities := s.buyQuantities ++ [⟨orderPrice, a.price, buyQuantity⟩]
              submitted := submitted' }
          else { s with submitted := submitted' }
        (s', decide (s'.remainingQuantity ≤ 0))

/-- The `for ask in asking_prices_sorted` loop. -/
def walkLadder (ok : ℕ → Bool) : List Ask → WalkState → WalkState
  | [], s => s
  | a :: rest, s =>
      let step := levelStep ok a s
      if step.2 then step.1 else walkLadder ok rest step.1

/-- `min([ask['price'] for ask in ... if ask['price'] > 0] or [1])`. -/
def minPositivePrice (ladder : List Ask) : ℚ :=
  match (ladder.filter fun a => decide (0 < a.price)).map Ask.price with
  | [] => 1
  | p :: ps => ps.foldl min p

/-- The walk's locals before the loop: `desired_quantity` is
`int(buy_amount / min_positive_price)`. -/
def initWalkState (buyAmount : ℚ) (ladder : List Ask) : WalkState :=
  { buyAmount := buyAmount
    remainingQuantity := pyInt (buyAmount / minPositivePrice ladder)
    totalBought := 0
    buyQuantities := []
    submitted := [] }

/-- Key of `sorted(asking_prices, key=lambda x: x['price'])`. -/
def askPriceLe (a b : Ask) : Prop := a.price ≤ b.price

instance : DecidableRel askPriceLe := fun a b => inferInstanceAs (Decidable (a.price ≤ b.price))

instance : IsTotal Ask askPriceLe := ⟨fun a b => le_total a.price b.price⟩

instance : IsTrans Ask askPriceLe := ⟨fun _ _ _ h h' => le_trans h h'⟩

/-- The whole per-symbol ladder walk of the buy loop: sort the ladder by
price, compute the desired quantity, then walk the levels. -/
def ladderWalk (ok : ℕ → Bool) (buyAmount : ℚ) (askingPrices : List Ask) : WalkState :=
  walkLadder ok (askingPrices.insertionSort askPriceLe)
    (initWalkState buyAmount (askingPrices.insertionSort askPriceLe))

/-- Total of `fill_qty * ladder price` over the recorded fills: exactly the
amount subtracted from `buy_amount` across the walk. -/
def fillSpend (fills : List Fill) : ℚ :=
  (fills.map fun f => (f.quantity : ℚ) * f.rawPrice).sum

/-! ### Token cache: `get_access_token` (`utils.py` 13-80) -/

/-- Contents of `access_token.json` once parsed: the two fields the source
reads (`none` = key absent or falsy). -/
structure TokenFile where
  access_token : Option String
  timestamp : Option ℤ
deriving DecidableEq

/-- State of the cache file: absent, present but unreadable or unparseable
(the `except Exception` arm of the read), or parsed contents. -/
inductive CacheState
  | absent
  | corrupt
  | file (d : TokenFile)
deriving DecidableEq

/-- One call's environment: the wall clock (in hours), the cache file state,
and the `access_token` field of the auth collaborator's response
(`none` = request failed or field missing). -/
structure TokenEnv where
  now : ℤ
  cache : CacheState
  auth : Option String

/-- Observable outcome of one `get_access_token` call: the returned token,
the cache file afterwards, and how many new-token requests were issued. -/
structure TokenOutcome where
  token : Option String
  cache : CacheState
  authRequests : ℕ
deriving DecidableEq

/-- The new-token branch (`utils.py` 48-80): one POST to `/oauth2/tokenP`;
on success persist the token with the current time, otherwise leave the
cache as the earlier deletion left it. -/
def issueNewToken (env : TokenEnv) (cacheAfterDelete : CacheState) : TokenOutcome :=
  match env.auth with
  | some tok => ⟨some tok, CacheState.file ⟨some tok, some env.now⟩, 1⟩
  | none => ⟨none, cacheAfterDelete, 1⟩

/-- `get_access_token`: return the cached token while it is younger than 24
hours; on expiry, missing fields, or any read error, delete the file and
issue a new token. -/
def getAccessToken (env : TokenEnv) : TokenOutcome :=
  match env.cache with
  | CacheState.absent => issueNewToken env CacheState.absent
  | CacheState.corrupt => issueNewToken env CacheState.absent
  | CacheState.file d =>
      match d.access_token, d.timestamp with
      | some tok, some t =>
          if env.now - t < 24 then ⟨some tok, env.cache, 0⟩
          else issueNewToken env CacheState.absent
      | some _, none => issueNewToken env CacheState.absent
      | none, _ => issueNewToken env CacheState.absent

/-! ### Concrete inputs used by the theorems below -/

/-- The spec's scenario ladder `[(9.50, 5), (9.60, 20), (9.80, 100)]`. -/
def scenarioLadder : List Ask := [⟨9.50, 5⟩, ⟨9.60, 20⟩, ⟨9.80, 100⟩]

/-- Order oracle under which every submitted order succeeds. -/
def allOrdersOk : ℕ → Bool := fun _ => true

/-- Order oracle under which only the second submission succeeds. -/
def retryOnce : ℕ → Bool := fun n => n == 1

/-- Venue schedule: NASD answers its first request with a rate limit and
would accept a second one; the other venues reject. -/
def rateLimitSched : Venue → ℕ → OrderResp
  | Venue.NASD, 0 => OrderResp.rateLimit
  | Venue.NASD, _ => OrderResp.ok (some "OD1")
  | _, _ => OrderResp.reject

/-- Venue schedule on which every venue rejects every request. -/
def allReject : Venue → ℕ → OrderResp := fun _ _ => OrderResp.reject

/-- Hash collaborator that always answers. -/
def hashAlwaysOk : Venue → Option String := fun _ => some "HASHKEY"

/-- Quote schedule whose first venue reports a parseable price of 0. -/
def zeroPriceResp : Excd → PriceResp
  | Excd.NAS => PriceResp.payload "0" (some (FieldVal.val 0))
  | Excd.NYS => PriceResp.transportError
  | Excd.AMS => PriceResp.transportError

/-! ## Theorems -/

/-- C5: position classification is a pure function of entry price and
current price: `profit_pct = (current - entry) / entry * 100` with the
zero-entry convention `profit_pct = 0`, a position is profit-taking exactly
when `profit_pct > 0` and stop-loss-candidate exactly when
`profit_pct <= 0`; entry 100 with current 110 is profit-taking, entry 100
with current 100 is stop-loss-candidate, and entry 0 is
stop-loss-candidate. -/
theorem classification_pure (b c : ℚ) :
    (b ≠ 0 → profitPct b c = (c - b) / b * 100) ∧
    profitPct 0 c = 0 ∧
    (classify b c = Bucket.profit_taking ↔ 0 < profitPct b c) ∧
    (classify b c = Bucket.stop_loss_candidate ↔ profitPct b c ≤ 0) ∧
    classify 100 110 = Bucket.profit_taking ∧
    classify 100 100 = Bucket.stop_loss_candidate ∧
    classify 0 c = Bucket.stop_loss_candidate := by
  refine ⟨fun hb => by simp [profitPct, hb], by simp [profitPct], ?_, ?_, ?_, ?_, ?_⟩
  · unfold classify
    split
    · simp_all
    · simp_all
  · unfold classify
    split
    · rename_i h
      simp_all [not_le.mpr h]
    · rename_i h
      simp_all [not_lt.mp h]
  · norm_num [classify, profitPct]
  · norm_num [classify, profitPct]
  · norm_num [classify, profitPct]

/-- C5 witness: the formula conjunct instantiated at entry 100,
current 110. -/
theorem classification_pure_witness :
    (100 : ℚ) ≠ 0 ∧ profitPct 100 110 = (110 - 100) / 100 * 100 :=
  ⟨by norm_num, (classification_pure 100 110).1 (by norm_num)⟩

/-- C4: in the stop-loss pass, a holding period below 5 days never submits
a SELL order regardless of the profit percentage; with a holding period of
at least 5 days and a snapshot profit percentage at most 0, the live price
is fetched and a SELL at the live price is submitted exactly when the
recomputed amount `(live - entry) * quantity` is at most 0; a SELL at a
recomputed gain is never submitted. -/
theorem stop_loss_gating (buyPrice : ℚ) (qty : ℤ) (snap : ℚ) (hp : ℤ)
    (live : Option ℚ) :
    (hp < 5 → stopLossDecision buyPrice qty snap hp live = (false, none)) ∧
    (5 ≤ hp → profitPct buyPrice snap ≤ 0 → ∀ p, live = some p →
      (stopLossDecision buyPrice qty snap hp live).1 = true ∧
      ((stopLossDecision buyPrice qty snap hp live).2 = some p ↔
        (p - buyPrice) * qty ≤ 0)) ∧
    (∀ p, (stopLossDecision buyPrice qty snap hp live).2 = some p →
      (p - buyPrice) * qty ≤ 0) := by
  refine ⟨?_, ?_, ?_⟩
  · intro h
    have h5 : ¬ (5 ≤ hp) := by omega
    simp [stopLossDecision, h5]
  · intro h5 hpct p hlive
    subst hlive
    by_cases hloss : (p - buyPrice) * qty ≤ 0
    · simp [stopLossDecision, h5, hpct, hloss]
    · simp [stopLossDecision, h5, hpct, hloss]
  · intro p hsell
    by_cases h5 : 5 ≤ hp
    · by_cases hpct : profitPct buyPrice snap ≤ 0
      · cases live with
        | none => simp [stopLossDecision, h5, hpct] at hsell
        | some q =>
          by_cases hloss : (q - buyPrice) * qty ≤ 0
          · simp only [stopLossDecision, if_pos h5, if_pos hpct, if_pos hloss,
              Option.some.injEq] at hsell
            exact hsell ▸ hloss
          · simp [stopLossDecision, h5, hpct, hloss] at hsell
      · simp [stopLossDecision, h5, hpct] at hsell
    · simp [stopLossDecision, h5] at hsell

/-- C4 witness: a position held 5 days at snapshot profit -3 percent with a
live price still below entry yields exactly one SELL at the live price. -/
theorem stop_loss_gating_witness :
    (stopLossDecision 100 3 97 5 (some 98)).1 = true ∧
    ((stopLossDecision 100 3 97 5 (some 98)).2 = some 98 ↔
      ((98 : ℚ) - 100) * (3 : ℤ) ≤ 0) :=
  (stop_loss_gating 100 3 97 5 (some 98)).2.1 (by norm_num)
    (by norm_num [profitPct]) 98 rfl

/-- C9: a token issued and persisted at time T is returned unchanged, with
no new-token request and an untouched cache, by every call strictly before
T plus 24 hours; a call at or after T plus 24 hours performs exactly one
new-token request and, when the auth collaborator answers, persists the new
token with the call time; an unreadable or unparseable cache file is
handled exactly like an absent one (a cache miss), never fatally. -/
theorem token_cache_roundtrip (env : TokenEnv) (tok : String) (T : ℤ) :
    (env.cache = CacheState.file ⟨some tok, some T⟩ → env.now < T + 24 →
      getAccessToken env = ⟨some tok, env.cache, 0⟩) ∧
    (env.cache = CacheState.file ⟨some tok, some T⟩ → T + 24 ≤ env.now →
      (getAccessToken env).authRequests = 1 ∧
      (∀ newTok, env.auth = some newTok →
        getAccessToken env
          = ⟨some newTok, CacheState.file ⟨some newTok, some env.now⟩, 1⟩)) ∧
    (env.cache = CacheState.corrupt →
      (getAccessToken env).authRequests = 1 ∧
      getAccessToken env = getAccessToken ⟨env.now, CacheState.absent, env.auth⟩) := by
  refine ⟨?_, ?_, ?_⟩
  · intro hc hlt
    have hfresh : env.now - T < 24 := by omega
    simp [getAccessToken, hc, hfresh]
  · intro hc hge
    have hstale : ¬ (env.now - T < 24) := by omega
    constructor
    · cases hauth : env.auth with
      | none => simp [getAccessToken, hc, hstale, issueNewToken, hauth]
      | some newTok => simp [getAccessToken, hc, hstale, issueNewToken, hauth]
    · intro newTok hauth
      simp [getAccessToken, hc, hstale, issueNewToken, hauth]
  · intro hc
    cases hauth : env.auth with
    | none => simp [getAccessToken, hc, issueNewToken, hauth]
    | some newTok => simp [getAccessToken, hc, issueNewToken, hauth]

/-- C9 witness: a token issued at time 0 and looked up at time 10 is
returned unchanged with no auth request. -/
theorem token_cache_roundtrip_witness :
    getAccessToken ⟨10, CacheState.file ⟨some "TOK", some 0⟩, some "NEW"⟩
      = ⟨some "TOK", CacheState.file ⟨some "TOK", some 0⟩, 0⟩ :=
  (token_cache_roundtrip ⟨10, CacheState.file ⟨some "TOK", some 0⟩, some "NEW"⟩
    "TOK" 0).1 rfl (by norm_num)

/-- C3 counterexample: on the scenario ladder with budget 100 and every
order succeeding, the walk's remaining budget is 100 - 5 * 9.50 - 5 * 9.60
= 4.5, not the claimed 23.5. -/
theorem scenario_walk_counterexample :
    (ladderWalk allOrdersOk 100 scenarioLadder).buyAmount ≠ 23.5 ∧
    (ladderWalk allOrdersOk 100 scenarioLadder).buyAmount
      = 100 - 5 * 9.50 - 5 * 9.60 ∧
    (100 - 5 * (9.50 : ℚ) - 5 * 9.60) = 4.5 := by
  with_unfolding_all decide

/-- C3 (amended): on ladder [(9.50, 5), (9.60, 20), (9.80, 100)] with
budget 100 and every submitted order succeeding, the walk computes desired
upper bound 10, fills 5 shares at 9.50 then 5 at 9.60 in exactly two order
submissions, stops with remaining desired quantity 0, reaches total_filled
10, and leaves remaining budget 4.5. -/
theorem scenario_walk :
    (initWalkState 100 (scenarioLadder.insertionSort askPriceLe)).remainingQuantity
      = 10 ∧
    (ladderWalk allOrdersOk 100 scenarioLadder).buyQuantities
      = [⟨9.50, 9.50, 5⟩, ⟨9.60, 9.60, 5⟩] ∧
    (ladderWalk allOrdersOk 100 scenarioLadder).totalBought = 10 ∧
    (ladderWalk allOrdersOk 100 scenarioLadder).submitted = [9.50, 9.60] ∧
    (ladderWalk allOrdersOk 100 scenarioLadder).remainingQuantity = 0 ∧
    (ladderWalk allOrdersOk 100 scenarioLadder).buyAmount = 4.5 := by
  with_unfolding_all decide

/-- C10: at a level whose first BUY at `round(p, 2)` is rejected and whose
retry at the integer price `round(p)` succeeds, the recorded fill still
carries the price `round(p, 2)` and the budget is decremented by the fill
quantity times the raw ladder price `p`. -/
theorem retry_fill_recording (ok : ℕ → Bool) (a : Ask) (s : WalkState)
    (hp : ¬ a.price ≤ 0)
    (hposs : ¬ pyInt (s.buyAmount / a.price) ≤ 0)
    (hq : ¬ min a.volume (min (pyInt (s.buyAmount / a.price)) s.remainingQuantity) < 1)
    (hfail : ok s.submitted.length = false)
    (hretry : ok (s.submitted.length + 1) = true) :
    (levelStep ok a s).1.buyQuantities
      = s.buyQuantities ++ [⟨round2 a.price, a.price,
          min a.volume (min (pyInt (s.buyAmount / a.price)) s.remainingQuantity)⟩] ∧
    (levelStep ok a s).1.buyAmount
      = s.buyAmount
        - (min a.volume (min (pyInt (s.buyAmount / a.price)) s.remainingQuantity) : ℤ)
          * a.price ∧
    (levelStep ok a s).1.submitted
      = s.submitted ++ [round2 a.price, ((round a.price : ℤ) : ℚ)] := by
  refine ⟨?_, ?_, ?_⟩ <;> simp [levelStep, hp, hposs, hq, hfail, hretry]

/-- C10 witness: level price 9.567 with ample volume, first submission
rejected and the integer-price retry accepted: the fill records 9.57 and
the budget is charged 10 * 9.567. -/
theorem retry_fill_recording_witness :
    (levelStep retryOnce ⟨9.567, 10⟩ ⟨100, 10, 0, [], []⟩).1.buyQuantities
      = [⟨9.57, 9.567, 10⟩] ∧
    (levelStep retryOnce ⟨9.567, 10⟩ ⟨100, 10, 0, [], []⟩).1.buyAmount
      = 100 - 10 * 9.567 ∧
    (levelStep retryOnce ⟨9.567, 10⟩ ⟨100, 10, 0, [], []⟩).1.submitted
      = [9.57, 10] := by
  have h := retry_fill_recording retryOnce ⟨9.567, 10⟩ ⟨100, 10, 0, [], []⟩
    (by norm_num) (by with_unfolding_all decide) (by with_unfolding_all decide)
    rfl rfl
  refine ⟨?_, ?_, ?_⟩
  · rw [h.1]
    with_unfolding_all rfl
  · rw [h.2.1]
    with_unfolding_all rfl
  · rw [h.2.2]
    with_unfolding_all rfl

/-- A successful per-venue quote extraction pins down the response shape:
`rt_cd` is '0', `output` is truthy and its `last` field parses to the
returned value. -/
theorem tryVenuePrice_eq_some {r : PriceResp} {q : ℚ}
    (h : tryVenuePrice r = some q) :
    r = PriceResp.payload "0" (some (FieldVal.val q)) := by
  cases r with
  | transportError => simp [tryVenuePrice] at h
  | payload rt_cd output =>
      by_cases hrt : rt_cd ≠ "0"
      · simp [tryVenuePrice, hrt] at h
      · rw [not_not] at hrt
        subst hrt
        cases output with
        | none => simp [tryVenuePrice] at h
        | some f =>
            cases f with
            | absent => simp [tryVenuePrice] at h
            | malformed => simp [tryVenuePrice] at h
            | val p => simpa [tryVenuePrice] using h

/-- C6 counterexample: a response whose first slot parses to price -1 with
volume 5 (truthy, parseable strings) is returned in the ladder even though
its price is non-positive; only the slot with a missing price field is
dropped. -/
theorem ask_ladder_counterexample :
    getAskingPrice10 ⟨"0", some [⟨some (-1), some 5⟩, ⟨none, some 7⟩]⟩
      = (some [(-1, 5)], none) ∧ ¬ (0 < (-1 : ℚ)) := by
  with_unfolding_all decide

/-- C6 (amended): on a success response, entries with a missing, empty or
unparseable price or volume field are dropped (a parsed non-positive price
is kept); the survivors, at most 10 when the response has at most 10 slots,
are returned sorted ascending by price with no error message; an empty
surviving ladder is returned as the distinct non-error value
(some [], none). -/
theorem ask_ladder_fetch (resp : AskResp) (slots : List RawAsk)
    (hrt : resp.rt_cd = "0") (hout : resp.output2 = some slots) :
    (getAskingPrice10 resp).2 = none ∧
    (∃ l, (getAskingPrice10 resp).1 = some l ∧ l.Perm (keptAsks slots) ∧
      l.Sorted askLe ∧ (slots.length ≤ 10 → l.length ≤ 10)) ∧
    (keptAsks slots = [] → getAskingPrice10 resp = (some [], none)) := by
  have hne : ¬ resp.rt_cd ≠ "0" := by simp [hrt]
  by_cases hemp : (keptAsks slots).isEmpty
  · have hkept : keptAsks slots = [] := List.isEmpty_iff.mp hemp
    refine ⟨by simp [getAskingPrice10, hne, hout, hemp],
      ⟨[], by simp [getAskingPrice10, hne, hout, hemp], by simp [hkept],
        List.sorted_nil, by simp⟩,
      fun _ => by simp [getAskingPrice10, hne, hout, hemp]⟩
  · refine ⟨by simp [getAskingPrice10, hne, hout, hemp],
      ⟨(keptAsks slots).insertionSort askLe,
        by simp [getAskingPrice10, hne, hout, hemp],
        List.perm_insertionSort askLe (keptAsks slots),
        List.sorted_insertionSort askLe (keptAsks slots), ?_⟩,
      fun hk => absurd (List.isEmpty_iff.mpr hk) hemp⟩
    intro h10
    calc ((keptAsks slots).insertionSort askLe).length
        = (keptAsks slots).length :=
          (List.perm_insertionSort askLe (keptAsks slots)).length_eq
      _ ≤ slots.length := List.length_filterMap_le _ _
      _ ≤ 10 := h10

/-- C6 witness: a well-formed two-slot response is returned sorted with no
error. -/
theorem ask_ladder_fetch_witness :
    (getAskingPrice10 ⟨"0", some [⟨some 2, some 3⟩, ⟨some 1, some 4⟩]⟩).2
      = none :=
  (ask_ladder_fetch ⟨"0", some [⟨some 2, some 3⟩, ⟨some 1, some 4⟩]⟩
    [⟨some 2, some 3⟩, ⟨some 1, some 4⟩] rfl rfl).1

/-- C7 counterexample: the last-price lookup does not require the price to
be positive: a first venue whose `last` field is the truthy string "0"
(parsing to 0) makes the lookup return 0. -/
theorem last_price_counterexample :
    getCurrentPrice zeroPriceResp = some 0 ∧
    zeroPriceResp Excd.NAS = PriceResp.payload "0" (some (FieldVal.val 0)) ∧
    ¬ (0 < (0 : ℚ)) := by
  with_unfolding_all decide

/-- C7 (amended): the lookup tries NAS, NYS, AMS in this fixed order and
returns the price of the first venue whose response is a success payload
with a present, parseable price field (of any sign); every failure advances
to the next venue without propagating, and `none` is returned only after
all three venues are exhausted. -/
theorem last_price_fallback (resp : Excd → PriceResp) :
    (∀ q, tryVenuePrice (resp Excd.NAS) = some q →
      getCurrentPrice resp = some q) ∧
    (tryVenuePrice (resp Excd.NAS) = none →
      ∀ q, tryVenuePrice (resp Excd.NYS) = some q →
        getCurrentPrice resp = some q) ∧
    (tryVenuePrice (resp Excd.NAS) = none →
      tryVenuePrice (resp Excd.NYS) = none →
      ∀ q, tryVenuePrice (resp Excd.AMS) = some q →
        getCurrentPrice resp = some q) ∧
    (tryVenuePrice (resp Excd.NAS) = none →
      tryVenuePrice (resp Excd.NYS) = none →
      tryVenuePrice (resp Excd.AMS) = none → getCurrentPrice resp = none) ∧
    (∀ q, getCurrentPrice resp = some q →
      ∃ e, resp e = PriceResp.payload "0" (some (FieldVal.val q))) := by
  refine ⟨?_, ?_, ?_, ?_, ?_⟩
  · intro q h
    simp [getCurrentPrice, getCurrentPriceGo, h]
  · intro hn q h
    simp [getCurrentPrice, getCurrentPriceGo, hn, h]
  · intro hn hn2 q h
    simp [getCurrentPrice, getCurrentPriceGo, hn, hn2, h]
  · intro hn hn2 hn3
    simp [getCurrentPrice, getCurrentPriceGo, hn, hn2, hn3]
  · intro q h
    cases h1 : tryVenuePrice (resp Excd.NAS) with
    | some p =>
        refine ⟨Excd.NAS, ?_⟩
        simp only [getCurrentPrice, getCurrentPriceGo, h1] at h
        exact tryVenuePrice_eq_some (h ▸ h1)
    | none =>
        cases h2 : tryVenuePrice (resp Excd.NYS) with
        | some p =>
            refine ⟨Excd.NYS, ?_⟩
            simp only [getCurrentPrice, getCurrentPriceGo, h1, h2] at h
            exact tryVenuePrice_eq_some (h ▸ h2)
        | none =>
            cases h3 : tryVenuePrice (resp Excd.AMS) with
            | some p =>
                refine ⟨Excd.AMS, ?_⟩
                simp only [getCurrentPrice, getCurrentPriceGo, h1, h2, h3] at h
                exact tryVenuePrice_eq_some (h ▸ h3)
            | none =>
                simp [getCurrentPrice, getCurrentPriceGo, h1, h2, h3] at h

/-- C7 witness: a parseable first-venue price is returned as such. -/
theorem last_price_fallback_witness :
    getCurrentPrice zeroPriceResp = some 0 :=
  (last_price_fallback zeroPriceResp).1 0 (by with_unfolding_all rfl)

/-- A valid transaction-id lookup pins the order type to BUY or SELL. -/
theorem trIdMap_valid {t : String} (h : trIdMap t ≠ none) :
    t = "BUY" ∨ t = "SELL" := by
  by_cases h1 : t = "BUY"
  · exact Or.inl h1
  · by_cases h2 : t = "SELL"
    · exact Or.inr h2
    · simp [trIdMap, h1, h2] at h

/-- The attempt trace of the venue loop is an in-order prefix of the
remaining venue list, and the loop sleeps exactly once per rate-limited
attempt. -/
theorem routeGo_trace (orderType : String) (quantity : ℤ) (price : ℚ)
    (hash : Venue → Option String) (resp : Venue → ℕ → OrderResp) :
    ∀ (venues attempts : List Venue) (sleeps : ℕ),
      (∀ v ∈ venues, attempts.count v = 0) → venues.Nodup →
      ∃ k, k ≤ venues.length ∧
        (routeGo orderType quantity price hash resp venues attempts sleeps).attempts
          = attempts ++ venues.take k ∧
        (routeGo orderType quantity price hash resp venues attempts sleeps).sleeps
          = sleeps + ((venues.take k).filter
              fun v => decide (resp v 0 = OrderResp.rateLimit)).length := by
  intro venues
  induction venues with
  | nil =>
      intro attempts sleeps _ _
      exact ⟨0, by simp [routeGo]⟩
  | cons v rest ih =>
      intro attempts sleeps hcount hnodup
      by_cases htype : orderType = "BUY" ∨ orderType = "SELL"
      · have hv0 : attempts.count v = 0 := hcount v (List.mem_cons_self v rest)
        cases hhash : hash v with
        | none => exact ⟨0, by simp [routeGo, htype, hhash]⟩
        | some hk =>
            have hrest : ∀ u ∈ rest, (attempts ++ [v]).count u = 0 := by
              intro u hu
              have hne : u ≠ v := fun h => (List.nodup_cons.mp hnodup).1 (h ▸ hu)
              have h1 := hcount u (List.mem_cons_of_mem v hu)
              have h2 : ([v] : List Venue).count u = 0 :=
                List.count_eq_zero_of_not_mem (by simp [hne])
              simp [List.count_append, h1, h2]
            have hnd : rest.Nodup := (List.nodup_cons.mp hnodup).2
            cases hresp : resp v 0 with
            | ok odno =>
                refine ⟨1, by simp, ?_, ?_⟩
                · simp [routeGo, htype, hhash, hv0, hresp]
                · simp [routeGo, htype, hhash, hv0, hresp]
            | reject =>
                obtain ⟨k, hk, hatt, hslp⟩ := ih (attempts ++ [v]) sleeps hrest hnd
                have hstep :
                    routeGo orderType quantity price hash resp (v :: rest) attempts sleeps
                      = routeGo orderType quantity price hash resp rest (attempts ++ [v]) sleeps := by
                  simp [routeGo, htype, hhash, hv0, hresp]
                refine ⟨k + 1, by simpa using Nat.succ_le_succ hk, ?_, ?_⟩
                · rw [hstep, hatt, List.take_succ_cons]
                  simp
                · rw [hstep, hslp, List.take_succ_cons, List.filter_cons]
                  simp [hresp]
            | rateLimit =>
                obtain ⟨k, hk, hatt, hslp⟩ := ih (attempts ++ [v]) (sleeps + 1) hrest hnd
                have hstep :
                    routeGo orderType quantity price hash resp (v :: rest) attempts sleeps
                      = routeGo orderType quantity price hash resp rest (attempts ++ [v]) (sleeps + 1) := by
                  simp [routeGo, htype, hhash, hv0, hresp]
                refine ⟨k + 1, by simpa using Nat.succ_le_succ hk, ?_, ?_⟩
                · rw [hstep, hatt, List.take_succ_cons]
                  simp
                · rw [hstep, hslp, List.take_succ_cons, List.filter_cons]
                  simp [hresp]
                  omega
            | httpError =>
                obtain ⟨k, hk, hatt, hslp⟩ := ih (attempts ++ [v]) sleeps hrest hnd
                have hstep :
                    routeGo orderType quantity price hash resp (v :: rest) attempts sleeps
                      = routeGo orderType quantity price hash resp rest (attempts ++ [v]) sleeps := by
                  simp [routeGo, htype, hhash, hv0, hresp]
                refine ⟨k + 1, by simpa using Nat.succ_le_succ hk, ?_, ?_⟩
                · rw [hstep, hatt, List.take_succ_cons]
                  simp
                · rw [hstep, hslp, List.take_succ_cons, List.filter_cons]
                  simp [hresp]
            | requestError =>
                obtain ⟨k, hk, hatt, hslp⟩ := ih (attempts ++ [v]) sleeps hrest hnd
                have hstep :
                    routeGo orderType quantity price hash resp (v :: rest) attempts sleeps
                      = routeGo orderType quantity price hash resp rest (attempts ++ [v]) sleeps := by
                  simp [routeGo, htype, hhash, hv0, hresp]
                refine ⟨k + 1, by simpa using Nat.succ_le_succ hk, ?_, ?_⟩
                · rw [hstep, hatt, List.take_succ_cons]
                  simp
                · rw [hstep, hslp, List.take_succ_cons, List.filter_cons]
                  simp [hresp]
            | otherError =>
                obtain ⟨k, hk, hatt, hslp⟩ := ih (attempts ++ [v]) sleeps hrest hnd
                have hstep :
                    routeGo orderType quantity price hash resp (v :: rest) attempts sleeps
                      = routeGo orderType quantity price hash resp rest (attempts ++ [v]) sleeps := by
                  simp [routeGo, htype, hhash, hv0, hresp]
                refine ⟨k + 1, by simpa using Nat.succ_le_succ hk, ?_, ?_⟩
                · rw [hstep, hatt, List.take_succ_cons]
                  simp
                · rw [hstep, hslp, List.take_succ_cons, List.filter_cons]
                  simp [hresp]
      · exact ⟨0, by simp [routeGo, htype]⟩

/-- C1 counterexample: NASD answers its first order request with a
rate-limit signal and would accept a second one, yet the router sends NASD
exactly one request, sleeping once and then moving on to NYSE; the claimed
same-venue retry never happens and the submission ends in the
all-venues-exhausted failure. -/
theorem venue_fallback_counterexample :
    rateLimitSched Venue.NASD 0 = OrderResp.rateLimit ∧
    rateLimitSched Venue.NASD 1 = OrderResp.ok (some "OD1") ∧
    (sendOrder "BUY" 1 5 hashAlwaysOk rateLimitSched).attempts
      = [Venue.NASD, Venue.NYSE, Venue.AMEX] ∧
    (sendOrder "BUY" 1 5 hashAlwaysOk rateLimitSched).attempts.count Venue.NASD
      = 1 ∧
    (sendOrder "BUY" 1 5 hashAlwaysOk rateLimitSched).sleeps = 1 ∧
    (sendOrder "BUY" 1 5 hashAlwaysOk rateLimitSched).result
      = ⟨false, none, some OrderError.allExhausted⟩ := by
  with_unfolding_all decide

/-- C1 (amended): on a rate-limit response (HTTP 429 or token EGW00201)
the router sleeps one backoff unit and then moves on to the NEXT venue
without retrying the rate-limited one; the attempted venues always form an
in-order prefix of the fixed priority list [NASD, NYSE, AMEX], so no venue
is ever attempted twice and venues are never reordered, and exactly the
rate-limited attempts are preceded by a sleep. -/
theorem venue_fallback_order (orderType : String) (quantity : ℤ) (price : ℚ)
    (hash : Venue → Option String) (resp : Venue → ℕ → OrderResp) :
    ∃ k, k ≤ 3 ∧
      (sendOrder orderType quantity price hash resp).attempts
        = venueOrder.take k ∧
      (sendOrder orderType quantity price hash resp).sleeps
        = ((venueOrder.take k).filter
            fun v => decide (resp v 0 = OrderResp.rateLimit)).length := by
  cases htr : trIdMap orderType with
  | none => exact ⟨0, by simp, by simp [sendOrder, htr], by simp [sendOrder, htr]⟩
  | some tr =>
      obtain ⟨k, hk, hatt, hslp⟩ :=
        routeGo_trace orderType quantity price hash resp venueOrder [] 0
          (by intro v _; simp) (by decide)
      exact ⟨k, by simpa [venueOrder] using hk,
        by simpa [sendOrder, htr] using hatt,
        by simpa [sendOrder, htr] using hslp⟩

/-- The venue loop always resolves to an explicit result: a success carries
no error, a failure always carries a reason. -/
theorem routeGo_result_explicit (orderType : String) (quantity : ℤ) (price : ℚ)
    (hash : Venue → Option String) (resp : Venue → ℕ → OrderResp) :
    ∀ (venues attempts : List Venue) (sleeps : ℕ),
      ((routeGo orderType quantity price hash resp venues attempts sleeps).result.success
          = true ∧
        (routeGo orderType quantity price hash resp venues attempts sleeps).result.error
          = none) ∨
      ((routeGo orderType quantity price hash resp venues attempts sleeps).result.success
          = false ∧
        ((routeGo orderType quantity price hash resp venues attempts sleeps).result.error).isSome
          = true) := by
  intro venues
  induction venues with
  | nil =>
      intro attempts sleeps
      right
      simp [routeGo]
  | cons v rest ih =>
      intro attempts sleeps
      by_cases htype : orderType = "BUY" ∨ orderType = "SELL"
      · cases hhash : hash v with
        | none =>
            right
            simp [routeGo, htype, hhash]
        | some hk =>
            cases hresp : resp v (attempts.count v) with
            | ok odno =>
                left
                simp [routeGo, htype, hhash, hresp]
            | reject => simpa [routeGo, htype, hhash, hresp] using ih (attempts ++ [v]) sleeps
            | rateLimit => simpa [routeGo, htype, hhash, hresp] using ih (attempts ++ [v]) (sleeps + 1)
            | httpError => simpa [routeGo, htype, hhash, hresp] using ih (attempts ++ [v]) sleeps
            | requestError => simpa [routeGo, htype, hhash, hresp] using ih (attempts ++ [v]) sleeps
            | otherError => simpa [routeGo, htype, hhash, hresp] using ih (attempts ++ [v]) sleeps
      · right
        simp [routeGo, htype]

/-- When every venue answers and none accepts, the loop attempts every
venue once in order and reports the all-exhausted failure. -/
theorem routeGo_exhaust (orderType : String) (quantity : ℤ) (price : ℚ)
    (hash : Venue → Option String) (resp : Venue → ℕ → OrderResp)
    (htype : orderType = "BUY" ∨ orderType = "SELL")
    (hhash : ∀ v, (hash v).isSome = true)
    (hfail : ∀ v odno, resp v 0 ≠ OrderResp.ok odno) :
    ∀ (venues attempts : List Venue) (sleeps : ℕ),
      (∀ v ∈ venues, attempts.count v = 0) → venues.Nodup →
      (routeGo orderType quantity price hash resp venues attempts sleeps).result
          = ⟨false, none, some OrderError.allExhausted⟩ ∧
      (routeGo orderType quantity price hash resp venues attempts sleeps).attempts
          = attempts ++ venues := by
  intro venues
  induction venues with
  | nil =>
      intro attempts sleeps _ _
      simp [routeGo]
  | cons v rest ih =>
      intro attempts sleeps hcount hnodup
      have hv0 : attempts.count v = 0 := hcount v (List.mem_cons_self v rest)
      have hrest : ∀ u ∈ rest, (attempts ++ [v]).count u = 0 := by
        intro u hu
        have hne : u ≠ v := fun h => (List.nodup_cons.mp hnodup).1 (h ▸ hu)
        have h1 := hcount u (List.mem_cons_of_mem v hu)
        have h2 : ([v] : List Venue).count u = 0 :=
          List.count_eq_zero_of_not_mem (by simp [hne])
        simp [List.count_append, h1, h2]
      have hnd : rest.Nodup := (List.nodup_cons.mp hnodup).2
      obtain ⟨hk, hksome⟩ := Option.isSome_iff_exists.mp (hhash v)
      cases hresp : resp v 0 with
      | ok odno => exact absurd hresp (hfail v odno)
      | reject =>
          have := ih (attempts ++ [v]) sleeps hrest hnd
          simpa [routeGo, htype, hksome, hv0, hresp] using this
      | rateLimit =>
          have := ih (attempts ++ [v]) (sleeps + 1) hrest hnd
          simpa [routeGo, htype, hksome, hv0, hresp] using this
      | httpError =>
          have := ih (attempts ++ [v]) sleeps hrest hnd
          simpa [routeGo, htype, hksome, hv0, hresp] using this
      | requestError =>
          have := ih (attempts ++ [v]) sleeps hrest hnd
          simpa [routeGo, htype, hksome, hv0, hresp] using this
      | otherError =>
          have := ih (attempts ++ [v]) sleeps hrest hnd
          simpa [routeGo, htype, hksome, hv0, hresp] using this

/-- C8: order submission always resolves to an explicit result value: a
missing (venue, side) transaction-id mapping returns the configuration
error with no venue contacted; a hash-generation failure at the first venue
aborts the whole submission with a failure result before any request; and
when every venue fails, the result is unsuccessful with the distinct
all-venues-exhausted reason after attempting every venue exactly once. -/
theorem send_order_total (orderType : String) (quantity : ℤ) (price : ℚ)
    (hash : Venue → Option String) (resp : Venue → ℕ → OrderResp) :
    (((sendOrder orderType quantity price hash resp).result.success = true ∧
        (sendOrder orderType quantity price hash resp).result.error = none) ∨
      ((sendOrder orderType quantity price hash resp).result.success = false ∧
        ((sendOrder orderType quantity price hash resp).result.error).isSome = true)) ∧
    (trIdMap orderType = none →
      sendOrder orderType quantity price hash resp
        = ⟨⟨false, none, some OrderError.configError⟩, [], 0⟩) ∧
    (trIdMap orderType ≠ none → hash Venue.NASD = none →
      sendOrder orderType quantity price hash resp
        = ⟨⟨false, none, some OrderError.hashFailure⟩, [], 0⟩) ∧
    (trIdMap orderType ≠ none → (∀ v, (hash v).isSome = true) →
      (∀ v odno, resp v 0 ≠ OrderResp.ok odno) →
      (sendOrder orderType quantity price hash resp).result
          = ⟨false, none, some OrderError.allExhausted⟩ ∧
      (sendOrder orderType quantity price hash resp).attempts = venueOrder) := by
  refine ⟨?_, ?_, ?_, ?_⟩
  · cases htr : trIdMap orderType with
    | none =>
        right
        simp [sendOrder, htr]
    | some tr =>
        simpa [sendOrder, htr] using
          routeGo_result_explicit orderType quantity price hash resp venueOrder [] 0
  · intro htr
    simp [sendOrder, htr]
  · intro htr hh
    have htype := trIdMap_valid htr
    cases htr2 : trIdMap orderType with
    | none => exact absurd htr2 htr
    | some tr => simp [sendOrder, htr2, venueOrder, routeGo, htype, hh]
  · intro htr hh hfail
    have htype := trIdMap_valid htr
    cases htr2 : trIdMap orderType with
    | none => exact absurd htr2 htr
    | some tr =>
        have := routeGo_exhaust orderType quantity price hash resp htype hh hfail
          venueOrder [] 0 (by intro v _; simp) (by decide)
        simpa [sendOrder, htr2] using this

/-- C8 witness: an unknown order type fails with the configuration error
and no venue attempt; a SELL rejected by every venue ends in the
all-venues-exhausted failure. -/
theorem send_order_total_witness :
    sendOrder "HOLD" 1 5 hashAlwaysOk rateLimitSched
      = ⟨⟨false, none, some OrderError.configError⟩, [], 0⟩ ∧
    (sendOrder "SELL" 2 7 hashAlwaysOk allReject).result
      = ⟨false, none, some OrderError.allExhausted⟩ := by
  constructor
  · exact (send_order_total "HOLD" 1 5 hashAlwaysOk rateLimitSched).2.1 rfl
  · exact ((send_order_total "SELL" 2 7 hashAlwaysOk allReject).2.2.2
      (by simp [trIdMap]) (fun v => rfl)
      (fun v odno h => OrderResp.noConfusion h)).1

/-- For a non-negative rational, Python truncation coincides with the
floor, so its cast stays below the argument. -/
theorem pyInt_cast_le {q : ℚ} (hq : 0 ≤ q) : (pyInt q : ℚ) ≤ q := by
  unfold pyInt
  rw [if_neg (not_lt.mpr hq)]
  exact Int.floor_le q

/-- Spending one fill appends its quantity-times-raw-price to the total. -/
theorem fillSpend_append (l : List Fill) (f : Fill) :
    fillSpend (l ++ [f]) = fillSpend l + (f.quantity : ℚ) * f.rawPrice := by
  simp [fillSpend]

/-- A quantity bounded by `int(budget / price)` cannot cost more than the
budget. -/
theorem fill_le_budget {A p : ℚ} {q : ℤ} (hA : 0 ≤ A) (hp : 0 < p)
    (hqle : q ≤ pyInt (A / p)) : (q : ℚ) * p ≤ A := by
  have hdiv : 0 ≤ A / p := div_nonneg hA (le_of_lt hp)
  have h1 : (pyInt (A / p) : ℚ) ≤ A / p := pyInt_cast_le hdiv
  have h2 : (q : ℚ) ≤ A / p := le_trans (by exact_mod_cast hqle) h1
  calc (q : ℚ) * p ≤ (A / p) * p := mul_le_mul_of_nonneg_right h2 (le_of_lt hp)
    _ = A := div_mul_cancel₀ A (ne_of_gt hp)

/-- One level of the walk either leaves the fill list and budget unchanged
(skipped level, or both submissions rejected) or appends one fill of at
least one share, bounded by `int(budget / price)`, and charges the budget
its quantity times the raw level price. -/
theorem levelStep_cases (ok : ℕ → Bool) (a : Ask) (s : WalkState) :
    ((levelStep ok a s).1.buyQuantities = s.buyQuantities ∧
      (levelStep ok a s).1.buyAmount = s.buyAmount) ∨
    (¬ a.price ≤ 0 ∧
      ∃ q : ℤ, 1 ≤ q ∧ q ≤ pyInt (s.buyAmount / a.price) ∧
        (levelStep ok a s).1.buyAmount = s.buyAmount - (q : ℚ) * a.price ∧
        (levelStep ok a s).1.buyQuantities
          = s.buyQuantities ++ [⟨round2 a.price, a.price, q⟩]) := by
  by_cases hp : a.price ≤ 0
  · left
    simp [levelStep, hp]
  · by_cases hposs : pyInt (s.buyAmount / a.price) ≤ 0
    · left
      simp [levelStep, hp, hposs]
    · by_cases hq :
        min a.volume (min (pyInt (s.buyAmount / a.price)) s.remainingQuantity) < 1
      · left
        simp [levelStep, hp, hposs, hq]
      · have hq1 :
            1 ≤ min a.volume (min (pyInt (s.buyAmount / a.price)) s.remainingQuantity) :=
          not_lt.mp hq
        have hqle :
            min a.volume (min (pyInt (s.buyAmount / a.price)) s.remainingQuantity)
              ≤ pyInt (s.buyAmount / a.price) :=
          le_trans (min_le_right _ _) (min_le_left _ _)
        cases hfirst : ok s.submitted.length with
        | true =>
            right
            exact ⟨hp, _, hq1, hqle,
              by simp [levelStep, hp, hposs, hq, hfirst],
              by simp [levelStep, hp, hposs, hq, hfirst]⟩
        | false =>
            cases hsecond : ok (s.submitted.length + 1) with
            | true =>
                right
                exact ⟨hp, _, hq1, hqle,
                  by simp [levelStep, hp, hposs, hq, hfirst, hsecond],
                  by simp [levelStep, hp, hposs, hq, hfirst, hsecond]⟩
            | false =>
                left
                simp [levelStep, hp, hposs, hq, hfirst, hsecond]

/-- A level never drives the remaining budget negative. -/
theorem levelStep_budget_nonneg (ok : ℕ → Bool) (a : Ask) (s : WalkState)
    (hs : 0 ≤ s.buyAmount) : 0 ≤ (levelStep ok a s).1.buyAmount := by
  rcases levelStep_cases ok a s with ⟨_, hba⟩ | ⟨hp, q, hq1, hqle, hba, _⟩
  · rw [hba]
    exact hs
  · rw [hba]
    have := fill_le_budget hs (not_le.mp hp) hqle
    linarith

/-- Walk invariants: starting from a non-negative budget, the budget stays
non-negative, budget plus recorded spend is conserved, and every new fill
holds at least one share. -/
theorem walkLadder_budget (ok : ℕ → Bool) :
    ∀ (L : List Ask) (s : WalkState), 0 ≤ s.buyAmount →
      0 ≤ (walkLadder ok L s).buyAmount ∧
      (walkLadder ok L s).buyAmount + fillSpend (walkLadder ok L s).buyQuantities
        = s.buyAmount + fillSpend s.buyQuantities ∧
      (∀ f ∈ (walkLadder ok L s).buyQuantities,
        f ∈ s.buyQuantities ∨ 1 ≤ f.quantity) := by
  intro L
  induction L with
  | nil =>
      intro s h
      exact ⟨h, rfl, fun f hf => Or.inl hf⟩
  | cons a rest ih =>
      intro s h
      have hstep_nonneg := levelStep_budget_nonneg ok a s h
      have hstep_conserve :
          (levelStep ok a s).1.buyAmount + fillSpend (levelStep ok a s).1.buyQuantities
            = s.buyAmount + fillSpend s.buyQuantities := by
        rcases levelStep_cases ok a s with ⟨hbq, hba⟩ | ⟨hp, q, hq1, hqle, hba, hbq⟩
        · rw [hbq, hba]
        · rw [hbq, hba, fillSpend_append]
          ring
      have hstep_fills : ∀ f ∈ (levelStep ok a s).1.buyQuantities,
          f ∈ s.buyQuantities ∨ 1 ≤ f.quantity := by
        rcases levelStep_cases ok a s with ⟨hbq, _⟩ | ⟨hp, q, hq1, hqle, _, hbq⟩
        · rw [hbq]
          exact fun f hf => Or.inl hf
        · rw [hbq]
          intro f hf
          rcases List.mem_append.mp hf with hl | hr
          · exact Or.inl hl
          · right
            have hf' : f = ⟨round2 a.price, a.price, q⟩ := by simpa using hr
            rw [hf']
            exact hq1
      cases hbrk : (levelStep ok a s).2 with
      | true =>
          have hw : walkLadder ok (a :: rest) s = (levelStep ok a s).1 := by
            simp [walkLadder, hbrk]
          rw [hw]
          exact ⟨hstep_nonneg, hstep_conserve, hstep_fills⟩
      | false =>
          have hw : walkLadder ok (a :: rest) s
              = walkLadder ok rest (levelStep ok a s).1 := by
            simp [walkLadder, hbrk]
          rw [hw]
          obtain ⟨h1, h2, h3⟩ := ih (levelStep ok a s).1 hstep_nonneg
          exact ⟨h1, by rw [h2, hstep_conserve],
            fun f hf => (h3 f hf).elim (fun hin => hstep_fills f hin) Or.inr⟩

/-- C2: for every ladder with a positive-price level and every budget
B > 0, under any pattern of order successes the walk's accounting is
floor-based and never overspends: the remaining budget is non-negative
after every single level (and at the end), the recorded fills each hold an
integer quantity of at least one share, and the total spend (fill quantity
times the raw level price, the amount actually charged) never exceeds B at
all. -/
theorem ladder_walk_budget (ok : ℕ → Bool) (B : ℚ) (ladder : List Ask)
    (hB : 0 < B) (_hpos : ∃ a ∈ ladder, 0 < a.price) :
    0 ≤ (ladderWalk ok B ladder).buyAmount ∧
    fillSpend (ladderWalk ok B ladder).buyQuantities ≤ B ∧
    (∀ f ∈ (ladderWalk ok B ladder).buyQuantities, 1 ≤ f.quantity) ∧
    (∀ a s, 0 ≤ s.buyAmount → 0 ≤ (levelStep ok a s).1.buyAmount) := by
  have h0 : (0 : ℚ) ≤ B := le_of_lt hB
  obtain ⟨h1, h2, h3⟩ := walkLadder_budget ok (ladder.insertionSort askPriceLe)
    (initWalkState B (ladder.insertionSort askPriceLe)) h0
  have hw : ladderWalk ok B ladder
      = walkLadder ok (ladder.insertionSort askPriceLe)
          (initWalkState B (ladder.insertionSort askPriceLe)) := rfl
  rw [hw]
  have hinitA : (initWalkState B (ladder.insertionSort askPriceLe)).buyAmount = B := rfl
  have hinitQ :
      fillSpend (initWalkState B (ladder.insertionSort askPriceLe)).buyQuantities = 0 := rfl
  rw [hinitA, hinitQ, add_zero] at h2
  refine ⟨h1, by linarith, ?_, fun a s hs => levelStep_budget_nonneg ok a s hs⟩
  intro f hf
  rcases h3 f hf with hin | hq
  · have hnil : (initWalkState B (ladder.insertionSort askPriceLe)).buyQuantities = [] := rfl
    rw [hnil] at hin
    exact absurd hin (List.not_mem_nil f)
  · exact hq

/-- C2 witness: the invariants instantiated on the scenario ladder with
budget 100 and every order succeeding. -/
theorem ladder_walk_budget_witness :
    0 ≤ (ladderWalk allOrdersOk 100 scenarioLadder).buyAmount ∧
    fillSpend (ladderWalk allOrdersOk 100 scenarioLadder).buyQuantities ≤ 100 :=
  ⟨(ladder_walk_budget allOrdersOk 100 scenarioLadder (by norm_num)
      ⟨⟨9.50, 5⟩, by simp [scenarioLadder], by norm_num⟩).1,
    (ladder_walk_budget allOrdersOk 100 scenarioLadder (by norm_num)
      ⟨⟨9.50, 5⟩, by simp [scenarioLadder], by norm_num⟩).2.1⟩

end AutoTrade
